import Mathlib

/-!
# Verification of the Overmind scheduler core and spawn allocator

This file gives a shallow embedding of the scheduler (`Overseer`) and the
decentralized spawn allocator (`SpawnGroup`) of the Overmind codebase, and
settles the specification claims C1..C10 against it.

Conventions of the embedding:
* JS arrays become `List`; JS objects used as string-keyed maps become
  association lists `List (String × _)` (`lodash _.remove` becomes `filter`
  with the negated predicate, `delete obj[k]` becomes `filter` on the key).
* `Game.time` is passed explicitly as a `Nat` argument.
* JS truthiness of a stored number (`if (map[key])`) is modelled explicitly
  as "the key is present and its value is nonzero".
* External collaborators (pathfinding results, hostile queries, body
  generation) are oracle inputs carried in explicit world structures, as
  the spec treats them as out of scope.
* `Array.prototype.sort` with the comparator `(o1, o2) => o1.priority -
  o2.priority` is modelled by the stable `List.mergeSort` on the priority
  order (ECMAScript requires the sort to be stable).
-/

/-! ## Scheduler data model (Overseer) -/

/-- An `Overlord`: a priority-bearing unit of recurring work.  Only the
fields the scheduler bookkeeping reads are carried: `ref` (reference
identifier), `colony.name` and the numeric `priority`. -/
structure Overlord where
  ref : String
  colonyName : String
  priority : Nat
deriving DecidableEq, Repr

/-- A `Directive`: a standing intent that owns overlords.  `overlords`
models the values of the role-name → overlord mapping, and `name` is the
identifier used by `Overseer.removeDirective`. -/
structure Directive where
  name : String
  overlords : List Overlord
deriving DecidableEq, Repr

/-- The registration state of the `Overseer` scheduler: the directive
registry, the global overlord list, the `sorted` flag and the
colony-scoped overlord lists (`overlordsByColony`, an object keyed by
colony name). -/
structure OverseerState where
  directives : List Directive
  overlords : List Overlord
  sorted : Bool
  overlordsByColony : List (String × List Overlord)
deriving DecidableEq, Repr

/-- `Overseer.registerDirective`: `this.directives.push(directive)`. -/
def registerDirective (s : OverseerState) (d : Directive) : OverseerState :=
  { s with directives := s.directives ++ [d] }

/-- The bucket update of `Overseer.registerOverlord`: create the
colony-scoped list if missing, then push onto it. -/
def bucketPush (m : List (String × List Overlord)) (col : String) (o : Overlord) :
    List (String × List Overlord) :=
  match m with
  | [] => [(col, [o])]
  | (c, l) :: rest =>
    if c = col then (c, l ++ [o]) :: rest else (c, l) :: bucketPush rest col o

/-- `Overseer.registerOverlord`: push onto the global list and onto the
colony-scoped list.  Note: the source does *not* touch `this.sorted`. -/
def registerOverlord (s : OverseerState) (o : Overlord) : OverseerState :=
  { s with overlords := s.overlords ++ [o],
           overlordsByColony := bucketPush s.overlordsByColony o.colonyName o }

/-- `Overseer.removeOverlord`: `_.remove` every overlord with the same
`ref` from the global list, and from the colony-scoped list at
`overlord.colony.name` when that list exists.  Note: the source does *not*
touch `this.sorted`. -/
def removeOverlord (s : OverseerState) (o : Overlord) : OverseerState :=
  { s with overlords := s.overlords.filter (fun o2 => o2.ref != o.ref),
           overlordsByColony := s.overlordsByColony.map
             (fun p => if p.1 = o.colonyName
                       then (p.1, p.2.filter (fun o2 => o2.ref != o.ref))
                       else p) }

/-- `Overseer.removeDirective`: `_.remove` the directive by `name`, then
remove every overlord it owns. -/
def removeDirective (s : OverseerState) (d : Directive) : OverseerState :=
  d.overlords.foldl removeOverlord
    { s with directives := s.directives.filter (fun dir => dir.name != d.name) }

/-- The comparator of `Overseer.init`: `(o1, o2) => o1.priority - o2.priority`
as the corresponding total order on priorities. -/
def priorityLE (o1 o2 : Overlord) : Bool :=
  decide (o1.priority ≤ o2.priority)

/-- The sorting step of `Overseer.init`: if the overlord list is not marked
sorted, stable-sort the global list and every colony-scoped list by
ascending priority and mark it sorted; otherwise leave the state alone. -/
def overseerInitSort (s : OverseerState) : OverseerState :=
  if s.sorted then s
  else { s with overlords := s.overlords.mergeSort priorityLE,
                overlordsByColony := s.overlordsByColony.map
                  (fun p => (p.1, p.2.mergeSort priorityLE)),
                sorted := true }

/-- A list of overlords is in non-decreasing priority order. -/
abbrev sortedByPriority (l : List Overlord) : Prop :=
  l.Pairwise fun a b => a.priority ≤ b.priority

/-- Two overlord lists agree on the sublist of each priority class: this is
the standard characterisation of one list being a *stable* rearrangement of
the other. -/
abbrev samePriorityOrder (l1 l2 : List Overlord) : Prop :=
  ∀ p, l1.filter (fun o => o.priority == p) = l2.filter (fun o => o.priority == p)

/-- What the sorting step of `init()` guarantees for a state whose lists
are marked unsorted: global list and every colony-scoped list become
stably sorted by non-decreasing priority, and the flag is set. -/
def c1SortSpec (s : OverseerState) : Prop :=
  sortedByPriority (overseerInitSort s).overlords
  ∧ samePriorityOrder (overseerInitSort s).overlords s.overlords
  ∧ ((overseerInitSort s).overlords).Perm s.overlords
  ∧ (∀ c l2, ((overseerInitSort s).overlordsByColony).lookup c = some l2 →
      ∃ l1, s.overlordsByColony.lookup c = some l1 ∧ sortedByPriority l2
        ∧ samePriorityOrder l2 l1 ∧ l2.Perm l1)
  ∧ (overseerInitSort s).sorted = true

/-- Concrete scheduler scenario refuting C1 as stated: overlord `A`
(priority 10) is registered and `init()` runs, then overlord `B`
(priority 5) is registered and `init()` runs again.  Because neither
`registerOverlord` nor `removeOverlord` clears the `sorted` flag, the
second `init()` does not re-sort. -/
def c1CounterState : OverseerState :=
  overseerInitSort (registerOverlord
    (overseerInitSort (registerOverlord (OverseerState.mk [] [] false [])
      (Overlord.mk "A" "c1" 10)))
    (Overlord.mk "B" "c1" 5))

/-! ## Failure isolation (Overseer.try) -/

/-- A JS `Error` as the wrapper manipulates it: a `name` and a `stack`. -/
structure JSError where
  name : String
  stack : String
deriving DecidableEq, Repr

/-- The annotation performed by `Overseer.try` on a caught error: the new
`name` interpolates the callback source text, the optional identifier, the
old name and the stack. -/
def annotateError (callbackSrc : String) (identifier : Option String) (e : JSError) : JSError :=
  match identifier with
  | some id =>
    { e with name := "Caught unhandled exception at " ++ callbackSrc
        ++ " (identifier: " ++ id ++ "): \n" ++ e.name ++ "\n" ++ e.stack }
  | none =>
    { e with name := "Caught unhandled exception at " ++ callbackSrc
        ++ ": \n" ++ e.name ++ "\n" ++ e.stack }

/-- `Overseer.try(callback, identifier?)`.  The callback's behaviour is the
oracle `result` (`none` = returns normally, `some e` = throws `e`).  When
`USE_TRY_CATCH` is set a thrown error is annotated and appended to the
process-wide `Overmind.exceptions` list and the call returns; otherwise the
error propagates, modelled by the outer `none`. -/
def tryCall (useTryCatch : Bool) (callbackSrc : String) (identifier : Option String)
    (result : Option JSError) (exceptions : List JSError) : Option (List JSError) :=
  if useTryCatch then
    match result with
    | none => some exceptions
    | some e => some (exceptions ++ [annotateError callbackSrc identifier e])
  else
    match result with
    | none => some exceptions
    | some _ => none

/-- A task as the tick loop sees it: its `ref`, whether the suspension
check skips it, and the oracle outcome of invoking its `init` (or `run`). -/
structure TickTask where
  ref : String
  suspended : Bool
  throws : Option JSError
deriving DecidableEq, Repr

/-- The directive loop of `Overseer.init` / `Overseer.run`: every
directive is invoked directly, with no wrapper, so a thrown error aborts
the phase (result `none`); `invoked` accumulates the refs invoked so far. -/
def runDirectivePhase : List TickTask → List String → Option (List String)
  | [], invoked => some invoked
  | d :: rest, invoked =>
    match d.throws with
    | none => runDirectivePhase rest (invoked ++ [d.ref])
    | some _ => none

/-- The source text of the thunk passed to `Overseer.try` by the overlord
loops (`'' + callback` in the annotation). -/
def overlordCallbackSrc : String := "() => overlord.init()"

/-- The overlord loop of `Overseer.init` / `Overseer.run`: suspended
overlords are skipped; every other overlord is invoked through
`Overseer.try` with *no identifier argument*. -/
def runOverlordPhase (useTryCatch : Bool) :
    List TickTask → List String → List JSError → Option (List String × List JSError)
  | [], invoked, exceptions => some (invoked, exceptions)
  | o :: rest, invoked, exceptions =>
    if o.suspended then runOverlordPhase useTryCatch rest invoked exceptions
    else
      match tryCall useTryCatch overlordCallbackSrc none o.throws exceptions with
      | some exceptions2 => runOverlordPhase useTryCatch rest (invoked ++ [o.ref]) exceptions2
      | none => none

/-- One scheduler phase (`init()` or `run()`): the directive loop followed
by the overlord loop; `none` means an uncaught exception aborted the
phase.  On success, returns the refs invoked and the exception list. -/
def overseerPhase (useTryCatch : Bool) (directives overlords : List TickTask) :
    Option (List String × List JSError) :=
  match runDirectivePhase directives [] with
  | none => none
  | some dInvoked =>
    match runOverlordPhase useTryCatch overlords [] [] with
    | none => none
    | some p => some (dInvoked ++ p.1, p.2)

/-- A concrete error used in the C2 counterexample. -/
def errE : JSError := JSError.mk "Error" "at Directive.init"

/-! ## Suspension ledger -/

/-- The `OverseerMemory.suspendUntil` map: overlord ref → resume tick. -/
abbrev SuspendMemory := List (String × Nat)

/-- JS object assignment `map[ref] = v`: replace the value when the key is
present, append otherwise. -/
def setSuspendKey (m : SuspendMemory) (ref : String) (v : Nat) : SuspendMemory :=
  match m with
  | [] => [(ref, v)]
  | (k, w) :: rest =>
    if k = ref then (k, v) :: rest else (k, w) :: setSuspendKey rest ref v

/-- `Overseer.suspendOverlordFor`: `suspendUntil[ref] = Game.time + ticks`. -/
def suspendOverlordFor (time : Nat) (m : SuspendMemory) (ref : String) (ticks : Nat) :
    SuspendMemory :=
  setSuspendKey m ref (time + ticks)

/-- `Overseer.suspendOverlordUntil`: `suspendUntil[ref] = untilTick`. -/
def suspendOverlordUntil (m : SuspendMemory) (ref : String) (untilTick : Nat) :
    SuspendMemory :=
  setSuspendKey m ref untilTick

/-- `Overseer.isOverlordSuspended`: the guard `if (suspendUntil[ref])` is
JS truthiness, i.e. the key is present with a *nonzero* value; then
`Game.time < suspendUntil[ref]` keeps the record and reports suspension,
while an expired record is deleted and suspension is denied.  A falsy
entry (absent, or present with value 0) reports no suspension and is left
alone.  Returns the flag together with the updated memory. -/
def isOverlordSuspended (time : Nat) (m : SuspendMemory) (ref : String) :
    Bool × SuspendMemory :=
  match m.lookup ref with
  | some v =>
    if v ≠ 0 then
      if time < v then (true, m)
      else (false, m.filter (fun p => p.1 != ref))
    else (false, m)
  | none => (false, m)

/-! ## Safe mode evaluation (Overseer.handleSafeMode) -/

/-- The externally visible steps taken by `handleSafeMode`:
`tryActivate` = a call to `controller.activateSafeMode()`, `evacuate` = a
`DirectiveTerminalEvacuateState.createIfNotPresent` call. -/
inductive SafeModeEvent
  | tryActivate
  | evacuate
deriving DecidableEq, Repr

/-- The world facts `handleSafeMode` reads about one colony, as oracles:
whether the colony is a Larva-stage colony on the public server, the
per-critical-structure trigger (`hits < hitsMax` and dangerous hostiles
within range 2), whether `activateSafeMode()` returns `OK`, whether
`controller.safeMode` is set when consulted after a failed activation,
whether a terminal exists, and the reachability trigger (a first dangerous
hostile with a rampart-free path to `spawns[0]`). -/
structure SafeModeColony where
  isLarvaOnPublic : Bool
  structureTriggers : List Bool
  activateOk : Bool
  safeModeActive : Bool
  hasTerminal : Bool
  hostileCanReachSpawn : Bool
deriving DecidableEq, Repr

/-- The loop of `handleSafeMode` over critical structures.  On a triggered
structure it calls `activateSafeMode()`; if that fails and safe mode is not
already active, it creates the terminal-evacuation directive when a
terminal exists and *continues with the next structure*; otherwise it
returns (second component `true`). -/
def safeModeStructureLoop (c : SafeModeColony) : List Bool → List SafeModeEvent × Bool
  | [] => ([], false)
  | trig :: rest =>
    if trig then
      if !c.activateOk && !c.safeModeActive then
        let evacEvents := if c.hasTerminal then [SafeModeEvent.evacuate] else []
        let tail := safeModeStructureLoop c rest
        (SafeModeEvent.tryActivate :: evacEvents ++ tail.1, tail.2)
      else ([SafeModeEvent.tryActivate], true)
    else safeModeStructureLoop c rest

/-- `Overseer.handleSafeMode`: the Larva/public early return, the critical
structure loop, and (when the loop did not return) the
hostile-can-reach-spawn trigger with the same activation/evacuation
handling. -/
def handleSafeMode (c : SafeModeColony) : List SafeModeEvent :=
  if c.isLarvaOnPublic then []
  else
    let loopResult := safeModeStructureLoop c c.structureTriggers
    if loopResult.2 then loopResult.1
    else if c.hostileCanReachSpawn then
      loopResult.1 ++ [SafeModeEvent.tryActivate]
        ++ (if !c.activateOk && !c.safeModeActive then
              (if c.hasTerminal then [SafeModeEvent.evacuate] else [])
            else [])
    else loopResult.1

/-- `true` iff the event trace contains a decision (an `evacuate`) that is
followed by a further trigger evaluation (`tryActivate`).  Claim C5 states
this never happens. -/
def evalAfterDecision : List SafeModeEvent → Bool
  | [] => false
  | e :: rest =>
    (e == SafeModeEvent.evacuate && rest.contains SafeModeEvent.tryActivate)
      || evalAfterDecision rest

/-- Concrete colony refuting C5 as stated: two damaged critical structures
near hostiles, activation fails, safe mode not already active, a terminal
exists.  The evacuation decision on the first structure does not stop the
loop from evaluating (and re-triggering on) the second structure. -/
def c5CounterColony : SafeModeColony :=
  SafeModeColony.mk false [true, true] false false true false

/-! ## Invasion defense (Overseer.handleColonyInvasions) -/

/-- The world facts `handleColonyInvasions` reads about one colony:
its level, the boost status of each hostile in the colony room
(`invader.boosts.length > 0`), the number of dangerous player hostiles,
and `RoomIntel.getSafetyData(room).unsafeFor`. -/
structure InvasionColony where
  level : Nat
  hostileBoosted : List Bool
  dangerousPlayerHostileCount : Nat
  unsafeFor : Nat
deriving DecidableEq, Repr

/-- `_.sum(_.map(hostiles, invader => invader.boosts.length > 0 ? 2 : 1))`. -/
def effectiveInvaderCount (c : InvasionColony) : Nat :=
  (c.hostileBoosted.map (fun boosted => if boosted then 2 else 1)).sum

/-- A placed directive flag, identified by directive kind and anchor
position (rendered as a string). -/
structure DirectiveFlag where
  kind : String
  pos : String
deriving DecidableEq, Repr

/-- Modelled from the spec: `Directive.createIfNotPresent` places the
directive flag only when no matching flag is already present (the
`Directive` base class is not part of the reviewed source).  Returns the
updated flag registry and whether a flag was created. -/
def createIfNotPresent (flags : List DirectiveFlag) (d : DirectiveFlag) :
    List DirectiveFlag × Bool :=
  if d ∈ flags then (flags, false) else (flags ++ [d], true)

/-- The invasion-defense directive at the colony controller's position. -/
def invasionDefenseFlag (controllerPos : String) : DirectiveFlag :=
  DirectiveFlag.mk "invasionDefense" controllerPos

/-- `Overseer.handleColonyInvasions`: for a colony at or above
`DirectiveInvasionDefense.requiredRCL` (a constant outside the reviewed
source, passed as a parameter), create the invasion-defense directive at
the controller position when the weighted hostile count reaches 3 or a
dangerous player hostile is present, and the room has been unsafe for more
than 20 ticks. -/
def handleColonyInvasions (requiredRCL : Nat) (c : InvasionColony) (controllerPos : String)
    (flags : List DirectiveFlag) : List DirectiveFlag × Bool :=
  if requiredRCL ≤ c.level then
    let needsDefending :=
      decide (3 ≤ effectiveInvaderCount c) || decide (0 < c.dangerousPlayerHostileCount)
    let invasionIsPersistent := decide (20 < c.unsafeFor)
    if needsDefending && invasionIsPersistent then
      createIfNotPresent flags (invasionDefenseFlag controllerPos)
    else (flags, false)
  else (flags, false)

/-! ## Scheduler registry well-formedness (for C8) -/

/-- Well-formedness of the colony-scoped registries, as established by
`registerOverlord`: every overlord stored in a colony's bucket names that
colony, and any stored overlord sharing the `ref` of an overlord owned by
the directive being removed also shares its colony (refs determine their
colony).  This holds for every state built by registration. -/
def bucketsCoherentFor (s : OverseerState) (os : List Overlord) : Prop :=
  ∀ o ∈ os, ∀ p ∈ s.overlordsByColony, ∀ o2 ∈ p.2,
    o2.ref = o.ref → p.1 = o.colonyName

/-- No overlord carrying the given `ref` appears in the scheduler's
registries (global list or any colony bucket): the "no orphaned
Overlords" condition. -/
def noRefIn (s : OverseerState) (r : String) : Prop :=
  (∀ o2 ∈ s.overlords, o2.ref ≠ r)
  ∧ (∀ p ∈ s.overlordsByColony, ∀ o2 ∈ p.2, o2.ref ≠ r)

/-- One scheduler state registers at most the overlords of another: the
global list shrank and every colony bucket kept its key while (possibly)
shrinking.  `removeOverlord` only ever shrinks registries, so this is
preserved along `removeDirective`'s fold. -/
def overseerSubset (s2 s1 : OverseerState) : Prop :=
  (∀ o2 ∈ s2.overlords, o2 ∈ s1.overlords)
  ∧ (∀ p ∈ s2.overlordsByColony,
      ∃ q ∈ s1.overlordsByColony, p.1 = q.1 ∧ ∀ o2 ∈ p.2, o2 ∈ q.2)

/-! ## Spawn allocator (SpawnGroup) -/

/-- A room-level route as stored in `SpawnGroupMemory.routes`:
`{ [roomName]: bool }`. -/
abbrev RouteT := List (String × Bool)

/-- The facts `recalculateColonies` reads about one colony room returned by
`getAllColonyRooms()`: its name, its linear distance to the anchor room,
whether `room.spawns[0]` exists, and the pathfinding oracles
`Pathing.findRoute(room.name, anchor)` (`none` when falsy) and
`Pathing.findPathToRoom(spawn.pos, anchor, {route})` (completeness flag and
path length). -/
structure ColonyRoom where
  name : String
  linearDistance : Nat
  hasSpawn : Bool
  route : Option RouteT
  pathIncomplete : Bool
  pathLength : Nat
deriving DecidableEq, Repr

/-- The world inputs of a recomputation: the colony rooms with their
pathfinding data relative to this anchor. -/
structure SGWorld where
  colonyRooms : List ColonyRoom
deriving DecidableEq, Repr

/-- `MAX_LINEAR_DISTANCE`: maximum linear distance to search for ANY spawn
group. -/
def MAX_LINEAR_DISTANCE : Nat := 10

/-- `MAX_PATH_DISTANCE`: maximum path distance to consider for ANY spawn
group. -/
def MAX_PATH_DISTANCE : Nat := 600

/-- The persisted `SpawnGroupMemory` for one anchor. -/
structure SpawnGroupMemory where
  colonies : List String
  distances : List (String × Nat)
  routes : List (String × RouteT)
  expiration : Int
deriving DecidableEq, Repr

/-- `SpawnGroupMemoryDefaults`. -/
def SpawnGroupMemoryDefaults : SpawnGroupMemory :=
  SpawnGroupMemory.mk [] [] [] 0

/-- `SpawnGroupSettings`: the per-instance allocation settings. -/
structure SpawnGroupSettings where
  maxPathDistance : Nat
  requiredRCL : Nat
  flexibleEnergy : Bool
deriving DecidableEq, Repr

/-- The acceptance test of the `recalculateColonies` loop body for a room
that passed the linear-distance filter: `spawn` exists, `route` is truthy,
the path is complete and its length is within `MAX_PATH_DISTANCE`. -/
def spawnGroupAccept (r : ColonyRoom) : Bool :=
  r.hasSpawn && r.route.isSome && !r.pathIncomplete
    && decide (r.pathLength ≤ MAX_PATH_DISTANCE)

/-- The accumulation loop of `recalculateColonies` over the linear-range
colony rooms, building `colonies`, `distances` and `routes` together. -/
def recalcLoop : List ColonyRoom → List String × List (String × Nat) × List (String × RouteT)
  | [] => ([], [], [])
  | room :: rest =>
    let acc := recalcLoop rest
    if room.hasSpawn then
      match room.route with
      | some route =>
        if !room.pathIncomplete && decide (room.pathLength ≤ MAX_PATH_DISTANCE) then
          (room.name :: acc.1, (room.name, room.pathLength) :: acc.2.1,
            (room.name, route) :: acc.2.2)
        else acc
      | none => acc
    else acc

/-- `SpawnGroup.recalculateColonies` (pure part): filter the colony rooms
by `MAX_LINEAR_DISTANCE` and accumulate the accepted colonies with their
path lengths and routes.  Per the source comment, the per-instance
settings are *not* consulted. -/
def recalculateColonies (w : SGWorld) :
    List String × List (String × Nat) × List (String × RouteT) :=
  recalcLoop (w.colonyRooms.filter
    (fun room => decide (room.linearDistance ≤ MAX_LINEAR_DISTANCE)))

/-- Modelled from the spec: `getCacheExpiration(timeout, offset)` (a
utility outside the reviewed source) returns the current tick plus the
base timeout plus a random jitter bounded by the offset (25 here). -/
def getCacheExpiration (time : Nat) (timeout : Nat) (jitter : Int) : Int :=
  (time : Int) + (timeout : Int) + jitter

/-- The memory write-back of `recalculateColonies`: replace `colonies`,
`routes` and `distances` with the freshly computed triple and set
`expiration`.  `recacheTime` stands for `DEFAULT_RECACHE_TIME` (2000 on
the public server, 1000 otherwise) and `jitter` for the random offset. -/
def applyRecalc (time recacheTime : Nat) (jitter : Int) (w : SGWorld)
    (_m : SpawnGroupMemory) : SpawnGroupMemory :=
  let fresh := recalculateColonies w
  SpawnGroupMemory.mk fresh.1 fresh.2.1 fresh.2.2 (getCacheExpiration time recacheTime jitter)

/-- The cache-maintenance step of the `SpawnGroup` constructor: when
`Game.time >= memory.expiration`, recompute; otherwise keep the memory.
The per-instance `settings` are in scope but deliberately unused
(spawn groups share this memory). -/
def constructMemory (settings : SpawnGroupSettings) (time recacheTime : Nat) (jitter : Int)
    (w : SGWorld) (m : SpawnGroupMemory) : SpawnGroupMemory :=
  if m.expiration ≤ (time : Int) then applyRecalc time recacheTime jitter w m else m

/-- The spawn-group memories reachable from the defaults by constructor
runs (a `refresh()` re-reads the same memory and is the identity here). -/
inductive SGReachable : SpawnGroupMemory → Prop
  | defaults : SGReachable SpawnGroupMemoryDefaults
  | construct (settings : SpawnGroupSettings) (time recacheTime : Nat) (jitter : Int)
      (w : SGWorld) (m : SpawnGroupMemory) :
      SGReachable m → SGReachable (constructMemory settings time recacheTime jitter w m)

/-! ## Spawn allocator request assignment (SpawnGroup.init) -/

/-- A producer (`Hatchery`) as the allocator reads it: its room name, the
room's energy capacity, and `nextAvailability`. -/
structure Hatchery where
  roomName : String
  energyCapacityAvailable : Nat
  nextAvailability : Nat
deriving DecidableEq, Repr

/-- A buffered spawn request: the requested role and the oracle
`bodyCost(setup.generateBody(energy))` as a function of the group's
aggregate energy capacity (`none` models `_.max([])`, i.e. no eligible
colony). -/
structure SpawnRequestModel where
  role : String
  maxCostAt : Option Nat → Nat

/-- One step of the `minBy` fold: keep the current best unless the new
element is strictly smaller. -/
def minByStep {α : Type} (f : α → Nat) (best : Option α) (x : α) : Option α :=
  match best with
  | none => some x
  | some b => if f x < f b then some x else best

/-- Modelled from the spec: the `minBy` utility (outside the reviewed
source) returns the element minimising the iteratee, the first such
element on ties, and `none` on an empty list. -/
def minBy {α : Type} (l : List α) (f : α → Nat) : Option α :=
  l.foldl (minByStep f) none

/-- `SpawnGroup.init`'s `distanceTo`: the cached path distance of the
hatchery's room plus the fixed handoff cost 25.  (A missing cache entry
would be `NaN` arithmetic in the source; the claims are settled under the
hypothesis that every considered hatchery has a cached distance.) -/
def distanceTo (distances : List (String × Nat)) (h : Hatchery) : Nat :=
  ((distances.lookup h.roomName).getD 0) + 25

/-- The expected-wait key minimised by the allocator:
`hatchery.nextAvailability + distanceTo(hatchery)`. -/
def spawnKey (distances : List (String × Nat)) (h : Hatchery) : Nat :=
  h.nextAvailability + distanceTo distances h

/-- The warning emitted when a request cannot be assigned. -/
def couldNotEnqueueMsg (role roomName : String) : String :=
  "Could not enqueue creep " ++ role ++ " from spawnGroup in " ++ roomName

/-- The outcome of one buffered request in `SpawnGroup.init`: either it is
enqueued to exactly one hatchery, or it is dropped with one warning. -/
inductive RequestOutcome
  | assigned (h : Hatchery)
  | warned (message : String)
deriving DecidableEq, Repr

/-- The per-request body of the `SpawnGroup.init` loop: compute the
maximum body cost at the group's energy capacity, filter the hatcheries
that can afford it, and enqueue to the one minimising the expected wait;
with no qualifying hatchery, warn with the role and the anchor room. -/
def processRequest (roomName : String) (distances : List (String × Nat))
    (energyCapacityAvailable : Option Nat) (hatcheries : List Hatchery)
    (request : SpawnRequestModel) : RequestOutcome :=
  let maxCost := request.maxCostAt energyCapacityAvailable
  let okHatcheries := hatcheries.filter
    (fun h => decide (maxCost ≤ h.energyCapacityAvailable))
  match minBy okHatcheries (spawnKey distances) with
  | some best => RequestOutcome.assigned best
  | none => RequestOutcome.warned (couldNotEnqueueMsg request.role roomName)

/-- `Game.rooms[name]` as the constructor's eligibility filter reads it. -/
structure GameRoomInfo where
  my : Bool
  controllerLevel : Nat
  energyCapacityAvailable : Nat
deriving DecidableEq, Repr

/-- The world inputs of the `SpawnGroup` constructor/`init` pipeline:
`Game.rooms` and the hatchery of each constructed colony (absent entries
model the `_.compact` of missing colonies / missing hatcheries). -/
structure C10World where
  rooms : List (String × GameRoomInfo)
  hatcheryOf : List (String × Hatchery)
deriving DecidableEq, Repr

/-- The constructor's derived `colonyNames`: the cached colonies filtered
by the instance settings (`maxPathDistance`, visibility, ownership,
`requiredRCL`).  A colony without a cached distance fails the comparison. -/
def computeColonyNames (mem : SpawnGroupMemory) (settings : SpawnGroupSettings)
    (rooms : List (String × GameRoomInfo)) : List String :=
  mem.colonies.filter (fun roomName =>
    match mem.distances.lookup roomName with
    | some d =>
      decide (d ≤ settings.maxPathDistance)
        && (match rooms.lookup roomName with
            | some info => info.my && decide (settings.requiredRCL ≤ info.controllerLevel)
            | none => false)
    | none => false)

/-- The constructor's `energyCapacityAvailable`:
`_.max(_.map(colonyNames, room.energyCapacityAvailable))`, with `none`
modelling the `-Infinity` of an empty maximum. -/
def computeEnergyCapacity (colonyNames : List String)
    (rooms : List (String × GameRoomInfo)) : Option Nat :=
  (colonyNames.filterMap (fun n => (rooms.lookup n).map
    (fun info => info.energyCapacityAvailable))).max?

/-- The `SpawnGroup` constructor filtering plus `init()`: derive
`colonyNames` and the aggregate energy capacity from the cached memory and
the instance settings, gather the hatcheries of those colonies, and
process every buffered request in order.  One outcome per request. -/
def spawnGroupInit (mem : SpawnGroupMemory) (settings : SpawnGroupSettings)
    (w : C10World) (anchorRoomName : String) (requests : List SpawnRequestModel) :
    List RequestOutcome :=
  let colonyNames := computeColonyNames mem settings w.rooms
  let energyCap := computeEnergyCapacity colonyNames w.rooms
  let hatcheries := colonyNames.filterMap (fun n => w.hatcheryOf.lookup n)
  requests.map (processRequest anchorRoomName mem.distances energyCap hatcheries)

/-- A concrete colony room used by the cache-recompute witnesses: linear
distance 3, a live spawn, a route, a complete path of length 120. -/
def c6Room : ColonyRoom :=
  ColonyRoom.mk "colA" 3 true (some [("colA", true)]) false 120

/-- A one-room world for the cache-recompute witnesses. -/
def c6World : SGWorld :=
  SGWorld.mk [c6Room]

/-- The source's `defaultSettings` for a `SpawnGroup`. -/
def defaultSGSettings : SpawnGroupSettings :=
  SpawnGroupSettings.mk 250 7 true

/-- An alternative settings record, used to witness that recomputation is
independent of the instance settings. -/
def c6AltSettings : SpawnGroupSettings :=
  SpawnGroupSettings.mk 600 5 false

/-! ## Helper lemmas: the priority sort -/

theorem priorityLE_trans (a b c : Overlord) :
    priorityLE a b = true → priorityLE b c = true → priorityLE a c = true := by
  simp only [priorityLE, decide_eq_true_eq]
  exact Nat.le_trans

theorem priorityLE_total (a b : Overlord) :
    (priorityLE a b || priorityLE b a) = true := by
  simp only [priorityLE, Bool.or_eq_true, decide_eq_true_eq]
  exact Nat.le_total a.priority b.priority

/-- Sortedness of the stable sort used to model `Array.prototype.sort`. -/
theorem pairwise_mergeSort_priorityLE (l : List Overlord) :
    (l.mergeSort priorityLE).Pairwise (fun a b => a.priority ≤ b.priority) := by
  have h := List.sorted_mergeSort priorityLE_trans priorityLE_total l
  exact h.imp (fun hab => by simpa [priorityLE] using hab)

/-- Stability of the priority sort, in filter form: for any priority `p`,
the sublist of overlords with priority `p` is unchanged by the sort. -/
theorem filter_priority_mergeSort (l : List Overlord) (p : Nat) :
    (l.mergeSort priorityLE).filter (fun o => o.priority == p)
      = l.filter (fun o => o.priority == p) := by
  set q : Overlord → Bool := fun o => o.priority == p with hq
  have hcpair : (l.filter q).Pairwise (fun a b => priorityLE a b = true) := by
    apply List.pairwise_of_forall_mem_list
    intro a ha b hb
    have ha2 := List.of_mem_filter ha
    have hb2 := List.of_mem_filter hb
    simp only [hq, beq_iff_eq] at ha2 hb2
    simp [priorityLE, ha2, hb2]
  have hsub : (l.filter q).Sublist (l.mergeSort priorityLE) :=
    List.sublist_mergeSort priorityLE_trans priorityLE_total hcpair (List.filter_sublist l)
  have hsub2 : (l.filter q).Sublist ((l.mergeSort priorityLE).filter q) := by
    have h3 := hsub.filter q
    rwa [List.filter_filter, show (fun a => q a && q a) = q from by
      funext a; cases h : q a <;> simp [h]] at h3
  have hperm : ((l.mergeSort priorityLE).filter q).Perm (l.filter q) :=
    (List.mergeSort_perm l priorityLE).filter q
  exact (hsub2.eq_of_length hperm.length_eq.symm).symm

/-- Value-lookup through a key-preserving map over an association list. -/
theorem lookup_map_value {β γ : Type} (f : β → γ) (m : List (String × β)) (c : String) :
    (m.map (fun p => (p.1, f p.2))).lookup c = (m.lookup c).map f := by
  induction m with
  | nil => rfl
  | cons hd tl ih =>
    cases hd with
    | mk k v =>
      by_cases hk : c == k
      · simp [List.lookup, hk]
      · simp only [List.map, List.lookup, hk]
        exact ih

/-! ## Claim C1 -/

/-- Evaluation of the C1 counterexample scenario: the second sorting step
leaves the lists exactly as registration built them. -/
theorem c1CounterState_overlords :
    c1CounterState.overlords = [Overlord.mk "A" "c1" 10, Overlord.mk "B" "c1" 5] := by
  simp [c1CounterState, registerOverlord, overseerInitSort, bucketPush]

/-- C1 (counterexample): in the scheduler state reached by registering
overlord `A` (priority 10), running the sorting step of `init()`, then
registering overlord `B` (priority 5) and running the sorting step of the
next `init()`, the global overlord list is *not* sorted by non-decreasing
priority — because `registerOverlord` does not mark the list unsorted,
the second `init()` never re-sorts.  This refutes C1 as stated. -/
theorem c1_counterexample : ¬ sortedByPriority c1CounterState.overlords := by
  rw [c1CounterState_overlords]
  decide

/-- On a state marked unsorted, the sorting step of `init()` sorts both
registries and sets the flag. -/
theorem overseerInitSort_of_not_sorted (s : OverseerState) (h : s.sorted = false) :
    overseerInitSort s =
      { s with overlords := s.overlords.mergeSort priorityLE,
               overlordsByColony := s.overlordsByColony.map
                 (fun p => (p.1, p.2.mergeSort priorityLE)),
               sorted := true } := by
  unfold overseerInitSort
  rw [h]
  simp

theorem c1SortSpec_of_not_sorted (s : OverseerState) (h : s.sorted = false) :
    c1SortSpec s := by
  unfold c1SortSpec
  rw [overseerInitSort_of_not_sorted s h]
  refine ⟨pairwise_mergeSort_priorityLE s.overlords,
          fun p => filter_priority_mergeSort s.overlords p,
          List.mergeSort_perm s.overlords priorityLE, ?_, rfl⟩
  intro c l2 hl2
  have hl2b : (s.overlordsByColony.lookup c).map (fun l => l.mergeSort priorityLE)
      = some l2 := by
    rw [← lookup_map_value (fun l => l.mergeSort priorityLE) s.overlordsByColony c]
    exact hl2
  cases hfind : s.overlordsByColony.lookup c with
  | none => rw [hfind] at hl2b; exact absurd hl2b (by simp)
  | some l1 =>
    rw [hfind] at hl2b
    have hl2c : l1.mergeSort priorityLE = l2 := Option.some.inj hl2b
    refine ⟨l1, rfl, hl2c ▸ pairwise_mergeSort_priorityLE l1, ?_,
            hl2c ▸ List.mergeSort_perm l1 priorityLE⟩
    intro p
    rw [← hl2c]
    exact filter_priority_mergeSort l1 p

/-- C1 (amended): the lists are marked unsorted at construction, and an
`init()` on a state whose `sorted` flag is clear stable-sorts the global
overlord list and every colony-scoped list by non-decreasing priority
(preserving the relative order of equal priorities) and marks them sorted.
However, `registerOverlord` and `removeOverlord` do *not* mark the lists
as unsorted, so a registration or removal after a previous `init()` is not
re-sorted by the next `init()`. -/
theorem c1_amended_sort (s s2 : OverseerState) (o : Overlord) (h : s.sorted = false) :
    c1SortSpec s
    ∧ (registerOverlord s2 o).sorted = s2.sorted
    ∧ (removeOverlord s2 o).sorted = s2.sorted :=
  ⟨c1SortSpec_of_not_sorted s h, rfl, rfl⟩

/-- Witness for `c1_amended_sort` at a concrete unsorted two-overlord
state. -/
theorem c1_amended_sort_witness :
    (OverseerState.mk [] [Overlord.mk "A" "c1" 10, Overlord.mk "B" "c1" 5] false
      [("c1", [Overlord.mk "A" "c1" 10, Overlord.mk "B" "c1" 5])]).sorted = false
    ∧ (c1SortSpec (OverseerState.mk [] [Overlord.mk "A" "c1" 10, Overlord.mk "B" "c1" 5] false
        [("c1", [Overlord.mk "A" "c1" 10, Overlord.mk "B" "c1" 5])])
       ∧ (registerOverlord (OverseerState.mk [] [] false []) (Overlord.mk "C" "c2" 3)).sorted
           = (OverseerState.mk [] [] false []).sorted
       ∧ (removeOverlord (OverseerState.mk [] [] false []) (Overlord.mk "C" "c2" 3)).sorted
           = (OverseerState.mk [] [] false []).sorted) :=
  ⟨rfl, c1_amended_sort _ _ (Overlord.mk "C" "c2" 3) rfl⟩

/-! ## Claim C2 -/

/-- C2 (counterexample): with `USE_TRY_CATCH` enabled, a directive whose
`init` throws aborts the whole phase — the second directive is never
invoked and nothing is appended to the exception list — because the
directive loops of `Overseer.init`/`Overseer.run` call `directive.init()`
and `directive.run()` outside the failure-isolating wrapper.  This
refutes C2 as stated (the claim covers "every Directive and every
Overlord"). -/
theorem c2_counterexample :
    overseerPhase true
      [TickTask.mk "directive1" false (some errE), TickTask.mk "directive2" false none]
      [] = none := rfl

/-- The overlord loop with `USE_TRY_CATCH` processes every non-suspended
overlord, regardless of which of them throw: invoked refs and annotated
exceptions accumulate and the loop never aborts. -/
theorem runOverlordPhase_true_eq (overlords : List TickTask) (invoked : List String)
    (exceptions : List JSError) :
    runOverlordPhase true overlords invoked exceptions
      = some (invoked ++ (overlords.filter (fun o => !o.suspended)).map TickTask.ref,
              exceptions ++ (overlords.filter (fun o => !o.suspended)).filterMap
                (fun o => o.throws.map (annotateError overlordCallbackSrc none))) := by
  induction overlords generalizing invoked exceptions with
  | nil => simp [runOverlordPhase]
  | cons o rest ih =>
    cases hs : o.suspended with
    | true =>
      simp only [runOverlordPhase, hs, if_true, List.filter_cons, Bool.not_true,
        Bool.false_eq_true, if_false]
      exact ih invoked exceptions
    | false =>
      cases ht : o.throws with
      | none =>
        simp only [runOverlordPhase, hs, Bool.false_eq_true, if_false, tryCall, if_true, ht,
          List.filter_cons, Bool.not_false, if_true, List.map_cons, List.filterMap_cons,
          Option.map_none]
        rw [ih (invoked ++ [o.ref]) exceptions]
        simp
      | some e =>
        simp only [runOverlordPhase, hs, Bool.false_eq_true, if_false, tryCall, if_true, ht,
          List.filter_cons, Bool.not_false, List.map_cons, List.filterMap_cons,
          Option.map_some]
        rw [ih (invoked ++ [o.ref]) (exceptions ++ [annotateError overlordCallbackSrc none e])]
        simp

/-- The unwrapped directive loop aborts exactly when some directive
throws. -/
theorem runDirectivePhase_eq_none_iff (directives : List TickTask) (invoked : List String) :
    runDirectivePhase directives invoked = none
      ↔ ∃ d ∈ directives, (TickTask.throws d).isSome := by
  induction directives generalizing invoked with
  | nil => simp [runDirectivePhase]
  | cons d rest ih =>
    cases ht : d.throws with
    | none =>
      simp only [runDirectivePhase, ht]
      rw [ih (invoked ++ [d.ref])]
      simp [ht]
    | some e =>
      simp [runDirectivePhase, ht]

/-- C2 (amended): only Overlord `init`/`run` invocations are wrapped: with
`USE_TRY_CATCH` set, an exception thrown by an overlord is annotated with
the callback's source text and the error's stack (the call sites pass no
per-task identifier), appended to the process-wide exception list, and
execution continues with the next overlord — no overlord's failure
prevents the remaining overlords from being invoked.  Directive
`init`/`run` are invoked without the wrapper, so a directive exception
aborts the phase exactly when some directive throws. -/
theorem c2_amended_isolation (overlords directives : List TickTask) (invoked : List String)
    (exceptions : List JSError) :
    runOverlordPhase true overlords invoked exceptions
      = some (invoked ++ (overlords.filter (fun o => !o.suspended)).map TickTask.ref,
              exceptions ++ (overlords.filter (fun o => !o.suspended)).filterMap
                (fun o => o.throws.map (annotateError overlordCallbackSrc none)))
    ∧ (runDirectivePhase directives invoked = none
        ↔ ∃ d ∈ directives, (TickTask.throws d).isSome) :=
  ⟨runOverlordPhase_true_eq overlords invoked exceptions,
   runDirectivePhase_eq_none_iff directives invoked⟩

/-! ## Claim C4 -/

/-- Writing a suspension record makes it readable under its key. -/
theorem lookup_setSuspendKey_self (m : SuspendMemory) (ref : String) (v : Nat) :
    (setSuspendKey m ref v).lookup ref = some v := by
  induction m with
  | nil => simp [setSuspendKey, List.lookup]
  | cons hd tl ih =>
    cases hd with
    | mk k w =>
      by_cases hk : k = ref
      · simp [setSuspendKey, hk, List.lookup]
      · have hne : (ref == k) = false := by
          simp [beq_iff_eq]
          exact fun h2 => hk h2.symm
        simp [setSuspendKey, hk, List.lookup, hne, ih]

/-- Deleting a key from the ledger makes its lookup fail. -/
theorem lookup_filter_key_ne (m : SuspendMemory) (ref : String) :
    (m.filter (fun p => p.1 != ref)).lookup ref = none := by
  induction m with
  | nil => rfl
  | cons hd tl ih =>
    cases hd with
    | mk k w =>
      by_cases hk : k = ref
      · simp [List.filter_cons, hk, ih]
      · have hkeep : ((k, w).1 != ref) = true := by simp [hk]
        have hne : (ref == k) = false := by
          simp [beq_iff_eq]
          exact fun h2 => hk h2.symm
        simp [List.filter_cons, hkeep, List.lookup, hne, ih]

/-- C4 (counterexample): a suspension record with resume tick `T = 0`
(e.g. written by `suspendOverlordFor` at tick 0 with duration 0, or by
`suspendOverlordUntil(overlord, 0)`) is *never* deleted: at tick `5 ≥ T`
the read returns `false` but leaves the record in the ledger, because the
guard `if (this.memory.suspendUntil[overlord.ref])` treats the stored `0`
as falsy and skips the deletion branch.  This refutes the claim that every
record with resume tick `T` is deleted on the first read at a tick
`≥ T`. -/
theorem c4_counterexample :
    isOverlordSuspended 5 [("overlord1", 0)] "overlord1" = (false, [("overlord1", 0)]) := by
  rfl

/-- C4 (amended): after `suspendOverlordFor(o, d)` at tick `t`,
`isOverlordSuspended(o)` returns `true` exactly at the ticks before
`t + d` (in particular `true` on `[t, t+d-1]` and `false` from `t + d`
on); and every suspension record with *nonzero* resume tick `T` is
deleted exactly once, on the first read at a tick `≥ T`: that read
returns `false` and removes the entry, and any later read finds no entry
and leaves the ledger unchanged.  (A record with resume tick `0` is
reported not-suspended but is never deleted.) -/
theorem c4_amended_suspension (t d r1 read read2 T : Nat) (m0 m : SuspendMemory)
    (ref0 ref : String)
    (hT : m.lookup ref = some T) (hpos : 1 ≤ T) (hexp : T ≤ read) :
    ((isOverlordSuspended r1 (suspendOverlordFor t m0 ref0 d) ref0).1 = true ↔ r1 < t + d)
    ∧ isOverlordSuspended read m ref = (false, m.filter (fun p => p.1 != ref))
    ∧ (isOverlordSuspended read m ref).2.lookup ref = none
    ∧ isOverlordSuspended read2 (isOverlordSuspended read m ref).2 ref
        = (false, (isOverlordSuspended read m ref).2) := by
  have hwrite : (suspendOverlordFor t m0 ref0 d).lookup ref0 = some (t + d) :=
    lookup_setSuspendKey_self m0 ref0 (t + d)
  have hdel : isOverlordSuspended read m ref = (false, m.filter (fun p => p.1 != ref)) := by
    unfold isOverlordSuspended
    rw [hT]
    have h1 : T ≠ 0 := by omega
    have h2 : ¬ read < T := by omega
    simp [h1, h2]
  refine ⟨?_, hdel, ?_, ?_⟩
  · unfold isOverlordSuspended
    rw [hwrite]
    by_cases h0 : t + d = 0
    · simp [h0]
    · by_cases hlt : r1 < t + d
      · simp [h0, hlt]
      · simp [h0, hlt]
  · rw [hdel]
    exact lookup_filter_key_ne m ref
  · rw [hdel]
    unfold isOverlordSuspended
    rw [lookup_filter_key_ne m ref]

/-- Witness for `c4_amended_suspension`: suspension for 5 ticks at tick
100 is live at tick 104; a record resuming at tick 105 is removed by the
read at tick 105 and stays gone at tick 106. -/
theorem c4_amended_suspension_witness :
    ([("b", 105)] : SuspendMemory).lookup "b" = some 105 ∧ 1 ≤ 105 ∧ 105 ≤ 105
    ∧ (((isOverlordSuspended 104 (suspendOverlordFor 100 [] "a" 5) "a").1 = true
          ↔ 104 < 100 + 5)
       ∧ isOverlordSuspended 105 [("b", 105)] "b"
           = (false, ([("b", 105)] : SuspendMemory).filter (fun p => p.1 != "b"))
       ∧ (isOverlordSuspended 105 [("b", 105)] "b").2.lookup "b" = none
       ∧ isOverlordSuspended 106 (isOverlordSuspended 105 [("b", 105)] "b").2 "b"
           = (false, (isOverlordSuspended 105 [("b", 105)] "b").2)) :=
  ⟨rfl, by decide, by decide,
   c4_amended_suspension 100 5 104 105 106 105 [] [("b", 105)] "a" "b" rfl
     (by decide) (by decide)⟩

/-! ## Claim C5 -/

/-- C5 (counterexample): a colony with two damaged critical structures in
hostile range, a failing `activateSafeMode()`, safe mode not already
active, and a terminal: the evacuation decision taken at the first
structure does not stop the loop — a further trigger is evaluated (and a
further activation attempted) afterwards, because only a *successful*
activation (or already-active safe mode) returns early.  This refutes C5
as stated. -/
theorem c5_counterexample :
    evalAfterDecision (handleSafeMode c5CounterColony) = true := by
  rfl

/-- Under a successful activation (or already-active safe mode) the
critical-structure loop returns at the first trigger. -/
theorem safeModeStructureLoop_of_activateOk (c : SafeModeColony)
    (h : (c.activateOk || c.safeModeActive) = true) (trigs : List Bool) :
    safeModeStructureLoop c trigs
      = if trigs.any (fun b => b) then ([SafeModeEvent.tryActivate], true) else ([], false) := by
  induction trigs with
  | nil => simp [safeModeStructureLoop]
  | cons t rest ih =>
    cases t with
    | true =>
      have hcond : (!c.activateOk && !c.safeModeActive) = false := by
        rcases Bool.or_eq_true_iff.mp h with h1 | h1 <;> simp [h1]
      simp [safeModeStructureLoop, hcond]
    | false =>
      simp [safeModeStructureLoop, ih]

/-- C5 (amended): once safe mode is this tick's decision — a successful
`activateSafeMode()` (or safe mode already active) — no further
safe-mode triggers are evaluated for that colony: the whole evaluation
performs at most one activation attempt and never creates an evacuation
directive.  After a *failed* activation with an evacuation directive,
however, the remaining triggers are still evaluated (see the
counterexample). -/
theorem c5_amended_safeMode (c : SafeModeColony)
    (h : (c.activateOk || c.safeModeActive) = true) :
    (handleSafeMode c).count SafeModeEvent.tryActivate ≤ 1
    ∧ SafeModeEvent.evacuate ∉ handleSafeMode c
    ∧ evalAfterDecision (handleSafeMode c) = false := by
  have hcond : (!c.activateOk && !c.safeModeActive) = false := by
    rcases Bool.or_eq_true_iff.mp h with h1 | h1 <;> simp [h1]
  unfold handleSafeMode
  rw [safeModeStructureLoop_of_activateOk c h c.structureTriggers]
  cases hl : c.isLarvaOnPublic with
  | true => simp [evalAfterDecision]
  | false =>
    cases ha : c.structureTriggers.any (fun b => b) with
    | true =>
      simp [evalAfterDecision]
    | false =>
      cases hr : c.hostileCanReachSpawn with
      | true => simp [hcond, evalAfterDecision]
      | false => simp [evalAfterDecision]

/-- Witness for `c5_amended_safeMode`: a colony with one triggered
structure and a succeeding activation performs exactly that one
attempt. -/
theorem c5_amended_safeMode_witness :
    ((SafeModeColony.mk false [true, true] true false true true).activateOk
        || (SafeModeColony.mk false [true, true] true false true true).safeModeActive) = true
    ∧ ((handleSafeMode (SafeModeColony.mk false [true, true] true false true true)).count
          SafeModeEvent.tryActivate ≤ 1
       ∧ SafeModeEvent.evacuate ∉ handleSafeMode (SafeModeColony.mk false [true, true] true false true true)
       ∧ evalAfterDecision (handleSafeMode (SafeModeColony.mk false [true, true] true false true true))
           = false) :=
  ⟨by decide, c5_amended_safeMode (SafeModeColony.mk false [true, true] true false true true)
    (by decide)⟩

/-! ## Claim C7 -/

/-- C7: an invasion-defense directive is created at the controller
position exactly when the colony is at or above the required level, the
weighted hostile count reaches 3 or a dangerous player hostile is
present, the room has been unsafe for more than 20 ticks, and the
directive is not already present; once present, the registry is left
unchanged on any later tick (no duplicates); colonies below the required
level never create one. -/
theorem c7_invasionDefense (requiredRCL : Nat) (c c2 c3 : InvasionColony) (pos : String)
    (flags flags2 : List DirectiveFlag)
    (hpresent : invasionDefenseFlag pos ∈ flags2)
    (hlow : c3.level < requiredRCL) :
    ((handleColonyInvasions requiredRCL c pos flags).2 = true ↔
       (requiredRCL ≤ c.level
         ∧ (3 ≤ effectiveInvaderCount c ∨ 0 < c.dangerousPlayerHostileCount)
         ∧ 20 < c.unsafeFor ∧ invasionDefenseFlag pos ∉ flags))
    ∧ ((handleColonyInvasions requiredRCL c pos flags).2 = true →
        (handleColonyInvasions requiredRCL c pos flags).1 = flags ++ [invasionDefenseFlag pos])
    ∧ handleColonyInvasions requiredRCL c2 pos flags2 = (flags2, false)
    ∧ handleColonyInvasions requiredRCL c3 pos flags = (flags, false) := by
  have hcond : ∀ cc : InvasionColony,
      ((decide (3 ≤ effectiveInvaderCount cc) || decide (0 < cc.dangerousPlayerHostileCount))
        && decide (20 < cc.unsafeFor))
      = decide ((3 ≤ effectiveInvaderCount cc ∨ 0 < cc.dangerousPlayerHostileCount)
          ∧ 20 < cc.unsafeFor) := by
    intro cc
    simp
  refine ⟨?_, ?_, ?_, ?_⟩
  · unfold handleColonyInvasions createIfNotPresent
    dsimp only
    rw [hcond c]
    split_ifs with h1 h2 h3 <;> simp_all
  · unfold handleColonyInvasions createIfNotPresent
    dsimp only
    rw [hcond c]
    split_ifs <;> simp
  · unfold handleColonyInvasions createIfNotPresent
    dsimp only
    rw [hcond c2]
    split_ifs <;> simp_all
  · unfold handleColonyInvasions
    dsimp only
    rw [if_neg (by omega)]

/-- Witness for `c7_invasionDefense`: three unboosted hostiles present for
25 ticks in a level-5 colony (required level 4) trigger exactly one
creation; a level-1 colony and an already-present directive do not. -/
theorem c7_invasionDefense_witness :
    invasionDefenseFlag "ctrl" ∈ [invasionDefenseFlag "ctrl"]
    ∧ (InvasionColony.mk 1 [] 0 0).level < 4
    ∧ (((handleColonyInvasions 4 (InvasionColony.mk 5 [false, false, false] 0 25) "ctrl" []).2
          = true ↔
        (4 ≤ (InvasionColony.mk 5 [false, false, false] 0 25).level
          ∧ (3 ≤ effectiveInvaderCount (InvasionColony.mk 5 [false, false, false] 0 25)
              ∨ 0 < (InvasionColony.mk 5 [false, false, false] 0 25).dangerousPlayerHostileCount)
          ∧ 20 < (InvasionColony.mk 5 [false, false, false] 0 25).unsafeFor
          ∧ invasionDefenseFlag "ctrl" ∉ ([] : List DirectiveFlag)))
       ∧ ((handleColonyInvasions 4 (InvasionColony.mk 5 [false, false, false] 0 25) "ctrl" []).2
            = true →
          (handleColonyInvasions 4 (InvasionColony.mk 5 [false, false, false] 0 25) "ctrl" []).1
            = [] ++ [invasionDefenseFlag "ctrl"])
       ∧ handleColonyInvasions 4 (InvasionColony.mk 5 [true] 2 30) "ctrl"
           [invasionDefenseFlag "ctrl"] = ([invasionDefenseFlag "ctrl"], false)
       ∧ handleColonyInvasions 4 (InvasionColony.mk 1 [] 0 0) "ctrl" [] = ([], false)) :=
  ⟨by decide, by decide,
   c7_invasionDefense 4 (InvasionColony.mk 5 [false, false, false] 0 25)
     (InvasionColony.mk 5 [true] 2 30) (InvasionColony.mk 1 [] 0 0) "ctrl" []
     [invasionDefenseFlag "ctrl"] (by decide) (by decide)⟩

/-! ## Claim C8 -/

theorem overseerSubset_refl (s : OverseerState) : overseerSubset s s :=
  ⟨fun _ h => h, fun p hp => ⟨p, hp, rfl, fun _ h => h⟩⟩

theorem overseerSubset_trans {s3 s2 s1 : OverseerState}
    (h32 : overseerSubset s3 s2) (h21 : overseerSubset s2 s1) : overseerSubset s3 s1 := by
  refine ⟨fun o2 h => h21.1 o2 (h32.1 o2 h), fun p hp => ?_⟩
  obtain ⟨q, hq, hkey, hmem⟩ := h32.2 p hp
  obtain ⟨q2, hq2, hkey2, hmem2⟩ := h21.2 q hq
  exact ⟨q2, hq2, hkey.trans hkey2, fun o2 h => hmem2 o2 (hmem o2 h)⟩

theorem overseerSubset_removeOverlord (s : OverseerState) (o : Overlord) :
    overseerSubset (removeOverlord s o) s := by
  constructor
  · intro o2 h
    exact List.mem_of_mem_filter h
  · intro p hp
    rcases List.mem_map.mp hp with ⟨q, hq, hfq⟩
    by_cases hc : q.1 = o.colonyName
    · rw [if_pos hc] at hfq
      exact ⟨q, hq, by rw [← hfq], fun o2 h => by
        rw [← hfq] at h
        exact List.mem_of_mem_filter h⟩
    · rw [if_neg hc] at hfq
      exact ⟨q, hq, by rw [← hfq], fun o2 h => by rw [← hfq] at h; exact h⟩

theorem overseerSubset_foldl_removeOverlord (os : List Overlord) (s : OverseerState) :
    overseerSubset (os.foldl removeOverlord s) s := by
  induction os generalizing s with
  | nil => exact overseerSubset_refl s
  | cons o rest ih =>
    rw [List.foldl_cons]
    exact overseerSubset_trans (ih (removeOverlord s o)) (overseerSubset_removeOverlord s o)

theorem noRefIn_mono {s2 s1 : OverseerState} {r : String}
    (hsub : overseerSubset s2 s1) (hn : noRefIn s1 r) : noRefIn s2 r := by
  refine ⟨fun o2 h => hn.1 o2 (hsub.1 o2 h), fun p hp o2 ho2 => ?_⟩
  obtain ⟨q, hq, _, hmem⟩ := hsub.2 p hp
  exact hn.2 q hq o2 (hmem o2 ho2)

theorem noRefIn_removeOverlord_self (s : OverseerState) (o : Overlord)
    (hco : ∀ p ∈ s.overlordsByColony, ∀ o2 ∈ p.2, o2.ref = o.ref → p.1 = o.colonyName) :
    noRefIn (removeOverlord s o) o.ref := by
  constructor
  · intro o2 h
    have h2 := List.of_mem_filter h
    simpa using h2
  · intro p hp o2 ho2
    rcases List.mem_map.mp hp with ⟨q, hq, hfq⟩
    by_cases hc : q.1 = o.colonyName
    · rw [if_pos hc] at hfq
      rw [← hfq] at ho2
      have h2 := List.of_mem_filter ho2
      simpa using h2
    · rw [if_neg hc] at hfq
      rw [← hfq] at ho2
      intro heq
      exact hc (hco q hq o2 ho2 heq)

theorem bucketsCoherentFor_removeOverlord (s : OverseerState) (o : Overlord)
    (os : List Overlord) (hco : bucketsCoherentFor s os) :
    bucketsCoherentFor (removeOverlord s o) os := by
  intro o3 ho3 p hp o2 ho2 heq
  rcases List.mem_map.mp hp with ⟨q, hq, hfq⟩
  by_cases hc : q.1 = o.colonyName
  · rw [if_pos hc] at hfq
    rw [← hfq] at ho2
    have hkey : p.1 = q.1 := by rw [← hfq]
    rw [hkey]
    exact hco o3 ho3 q hq o2 (List.mem_of_mem_filter ho2) heq
  · rw [if_neg hc] at hfq
    rw [← hfq] at ho2 ⊢
    exact hco o3 ho3 q hq o2 ho2 heq

theorem noRefIn_foldl_removeOverlord (os : List Overlord) (s : OverseerState)
    (hco : bucketsCoherentFor s os) :
    ∀ o ∈ os, noRefIn (os.foldl removeOverlord s) o.ref := by
  induction os generalizing s with
  | nil =>
    intro o h
    cases h
  | cons o rest ih =>
    intro o3 ho3
    rw [List.foldl_cons]
    rcases List.mem_cons.mp ho3 with rfl | hmem
    · have h1 : noRefIn (removeOverlord s o3) o3.ref :=
        noRefIn_removeOverlord_self s o3
          (fun p hp o2 ho2 => hco o3 ho3 p hp o2 ho2)
      exact noRefIn_mono (overseerSubset_foldl_removeOverlord rest (removeOverlord s o3)) h1
    · refine ih (removeOverlord s o) ?_ o3 hmem
      exact bucketsCoherentFor_removeOverlord s o rest
        (fun o4 h4 p hp o2 ho2 => hco o4 (List.mem_cons_of_mem o h4) p hp o2 ho2)

theorem directives_foldl_removeOverlord (os : List Overlord) (s : OverseerState) :
    (os.foldl removeOverlord s).directives = s.directives := by
  induction os generalizing s with
  | nil => rfl
  | cons o rest ih =>
    rw [List.foldl_cons]
    exact ih (removeOverlord s o)

/-- C8: `removeDirective(d)` removes `d` (by name) from the directive
registry and removes every overlord `d` owns from both the global overlord
list and the colony-scoped lists: afterwards no overlord carrying any of
those refs remains registered.  The hypothesis `bucketsCoherentFor` states
that the colony buckets were built by `registerOverlord` (an overlord
sharing a removed ref sits in its own colony's bucket), which holds for
every state assembled through the registration interface. -/
theorem c8_removeDirective (s : OverseerState) (d : Directive)
    (hco : bucketsCoherentFor s d.overlords) :
    (∀ dir ∈ (removeDirective s d).directives, dir.name ≠ d.name)
    ∧ ∀ o ∈ d.overlords, noRefIn (removeDirective s d) o.ref := by
  unfold removeDirective
  constructor
  · intro dir hdir
    rw [directives_foldl_removeOverlord] at hdir
    have h2 := List.of_mem_filter hdir
    simpa using h2
  · intro o ho
    exact noRefIn_foldl_removeOverlord d.overlords
      { s with directives := s.directives.filter (fun dir => dir.name != d.name) } hco o ho

/-- Witness for `c8_removeDirective`: removing a directive owning overlord
`X` from a two-overlord registry leaves no trace of `X`. -/
theorem c8_removeDirective_witness :
    bucketsCoherentFor
      (OverseerState.mk [Directive.mk "dir1" [Overlord.mk "X" "col" 1]]
        [Overlord.mk "X" "col" 1, Overlord.mk "Y" "col" 2] true
        [("col", [Overlord.mk "X" "col" 1, Overlord.mk "Y" "col" 2])])
      (Directive.mk "dir1" [Overlord.mk "X" "col" 1]).overlords
    ∧ ((∀ dir ∈ (removeDirective
          (OverseerState.mk [Directive.mk "dir1" [Overlord.mk "X" "col" 1]]
            [Overlord.mk "X" "col" 1, Overlord.mk "Y" "col" 2] true
            [("col", [Overlord.mk "X" "col" 1, Overlord.mk "Y" "col" 2])])
          (Directive.mk "dir1" [Overlord.mk "X" "col" 1])).directives,
          dir.name ≠ (Directive.mk "dir1" [Overlord.mk "X" "col" 1]).name)
       ∧ ∀ o ∈ (Directive.mk "dir1" [Overlord.mk "X" "col" 1]).overlords,
           noRefIn (removeDirective
             (OverseerState.mk [Directive.mk "dir1" [Overlord.mk "X" "col" 1]]
               [Overlord.mk "X" "col" 1, Overlord.mk "Y" "col" 2] true
               [("col", [Overlord.mk "X" "col" 1, Overlord.mk "Y" "col" 2])])
             (Directive.mk "dir1" [Overlord.mk "X" "col" 1])) o.ref) :=
  ⟨by simp [bucketsCoherentFor],
   c8_removeDirective
     (OverseerState.mk [Directive.mk "dir1" [Overlord.mk "X" "col" 1]]
       [Overlord.mk "X" "col" 1, Overlord.mk "Y" "col" 2] true
       [("col", [Overlord.mk "X" "col" 1, Overlord.mk "Y" "col" 2])])
     (Directive.mk "dir1" [Overlord.mk "X" "col" 1]) (by simp [bucketsCoherentFor])⟩

/-! ## Claim C3 -/

theorem minBy_foldl_some {α : Type} (f : α → Nat) (l : List α) (b0 b : α)
    (h : l.foldl (minByStep f) (some b0) = some b) :
    (b = b0 ∨ b ∈ l) ∧ f b ≤ f b0 ∧ ∀ x ∈ l, f b ≤ f x := by
  induction l generalizing b0 with
  | nil =>
    simp only [List.foldl_nil, Option.some_inj] at h
    refine ⟨Or.inl h.symm, by rw [h], ?_⟩
    intro x hx
    exact absurd hx (List.not_mem_nil x)
  | cons x xs ih =>
    rw [List.foldl_cons] at h
    by_cases hx : f x < f b0
    · rw [show minByStep f (some b0) x = some x from by simp [minByStep, hx]] at h
      obtain ⟨hmem, hle, hall⟩ := ih x h
      refine ⟨Or.inr ?_, Nat.le_trans hle (Nat.le_of_lt hx), ?_⟩
      · rcases hmem with rfl | hm
        · exact List.mem_cons_self b xs
        · exact List.mem_cons_of_mem x hm
      · intro y hy
        rcases List.mem_cons.mp hy with rfl | hm
        · exact hle
        · exact hall y hm
    · rw [show minByStep f (some b0) x = some b0 from by simp [minByStep, hx]] at h
      obtain ⟨hmem, hle, hall⟩ := ih b0 h
      refine ⟨?_, hle, ?_⟩
      · rcases hmem with rfl | hm
        · exact Or.inl rfl
        · exact Or.inr (List.mem_cons_of_mem x hm)
      · intro y hy
        rcases List.mem_cons.mp hy with rfl | hm
        · exact Nat.le_trans hle (Nat.le_of_not_lt hx)
        · exact hall y hm

/-- The selected element of `minBy` belongs to the list and minimises the
iteratee over it. -/
theorem minBy_eq_some {α : Type} (f : α → Nat) (l : List α) (b : α)
    (h : minBy l f = some b) : b ∈ l ∧ ∀ x ∈ l, f b ≤ f x := by
  cases l with
  | nil => simp [minBy] at h
  | cons x xs =>
    have h2 : xs.foldl (minByStep f) (some x) = some b := by
      simpa [minBy, List.foldl_cons, minByStep] using h
    obtain ⟨hmem, hle, hall⟩ := minBy_foldl_some f xs x b h2
    refine ⟨?_, ?_⟩
    · rcases hmem with rfl | hm
      · exact List.mem_cons_self b xs
      · exact List.mem_cons_of_mem x hm
    · intro y hy
      rcases List.mem_cons.mp hy with rfl | hm
      · exact hle
      · exact hall y hm

theorem minBy_foldl_ne_none {α : Type} (f : α → Nat) (l : List α) (b0 : α) :
    l.foldl (minByStep f) (some b0) ≠ none := by
  induction l generalizing b0 with
  | nil => simp
  | cons x xs ih =>
    rw [List.foldl_cons]
    by_cases hx : f x < f b0
    · rw [show minByStep f (some b0) x = some x from by simp [minByStep, hx]]
      exact ih x
    · rw [show minByStep f (some b0) x = some b0 from by simp [minByStep, hx]]
      exact ih b0

/-- `minBy` returns `none` exactly on the empty list. -/
theorem minBy_eq_none_iff {α : Type} (f : α → Nat) (l : List α) :
    minBy l f = none ↔ l = [] := by
  cases l with
  | nil => simp [minBy]
  | cons x xs =>
    constructor
    · intro h
      have h2 : xs.foldl (minByStep f) (some x) = none := by
        simpa [minBy, List.foldl_cons, minByStep] using h
      exact absurd h2 (minBy_foldl_ne_none f xs x)
    · intro h
      cases h

/-- C3: `SpawnGroup.init` gives each buffered request exactly one outcome,
in order; each request is assigned to a producer among those whose energy
capacity can afford the request's maximum body cost, minimising
`nextAvailability + cachedDistance + 25`; if no producer can afford it,
the request is dropped with exactly one warning naming the requested role
and the anchor room.  The hypothesis `hdist` is the faithfulness
precondition that every candidate producer has a cached distance (the
source would otherwise compute `NaN`). -/
theorem c3_spawnAllocation (anchor : String) (distances : List (String × Nat))
    (cap : Option Nat) (hatcheries : List Hatchery) (r : SpawnRequestModel)
    (best : Hatchery) (mem : SpawnGroupMemory) (settings : SpawnGroupSettings)
    (w : C10World) (requests : List SpawnRequestModel)
    (hdist : ∀ h ∈ hatcheries, ((distances.lookup h.roomName)).isSome = true) :
    (spawnGroupInit mem settings w anchor requests
       = requests.map (processRequest anchor mem.distances
           (computeEnergyCapacity (computeColonyNames mem settings w.rooms) w.rooms)
           ((computeColonyNames mem settings w.rooms).filterMap
             (fun n => w.hatcheryOf.lookup n))))
    ∧ (hatcheries.filter (fun h => decide (r.maxCostAt cap ≤ h.energyCapacityAvailable)) = []
        → processRequest anchor distances cap hatcheries r
            = RequestOutcome.warned (couldNotEnqueueMsg r.role anchor))
    ∧ (hatcheries.filter (fun h => decide (r.maxCostAt cap ≤ h.energyCapacityAvailable)) ≠ []
        → ∃ h2, processRequest anchor distances cap hatcheries r = RequestOutcome.assigned h2)
    ∧ (processRequest anchor distances cap hatcheries r = RequestOutcome.assigned best
        → best ∈ hatcheries.filter (fun h => decide (r.maxCostAt cap ≤ h.energyCapacityAvailable))
          ∧ ∀ h2 ∈ hatcheries.filter
              (fun h => decide (r.maxCostAt cap ≤ h.energyCapacityAvailable)),
              spawnKey distances best ≤ spawnKey distances h2) := by
  refine ⟨rfl, ?_, ?_, ?_⟩
  · intro hempty
    unfold processRequest
    dsimp only
    rw [hempty]
    rfl
  · intro hne
    unfold processRequest
    dsimp only
    cases hm : minBy (hatcheries.filter
        (fun h => decide (r.maxCostAt cap ≤ h.energyCapacityAvailable)))
        (spawnKey distances) with
    | none => exact absurd ((minBy_eq_none_iff _ _).mp hm) hne
    | some h2 => exact ⟨h2, rfl⟩
  · intro hassigned
    unfold processRequest at hassigned
    dsimp only at hassigned
    cases hm : minBy (hatcheries.filter
        (fun h => decide (r.maxCostAt cap ≤ h.energyCapacityAvailable)))
        (spawnKey distances) with
    | none =>
      rw [hm] at hassigned
      cases hassigned
    | some h2 =>
      rw [hm] at hassigned
      have hb : h2 = best := by
        cases hassigned
        rfl
      rw [hb] at hm
      exact minBy_eq_some (spawnKey distances) _ best hm

/-- Witness for `c3_spawnAllocation`: the three producers with
`(nextAvailability, cachedDistance)` equal to `(0,50)`, `(10,20)` and
`(5,5)`, all able to afford the request, yield an assignment to the third
(expected wait 35 against 75 and 55). -/
theorem c3_spawnAllocation_witness :
    (∀ h ∈ [Hatchery.mk "r1" 1000 0, Hatchery.mk "r2" 1000 10, Hatchery.mk "r3" 1000 5],
       ((([("r1", 50), ("r2", 20), ("r3", 5)] : List (String × Nat)).lookup h.roomName)).isSome
         = true)
    ∧ processRequest "w8" [("r1", 50), ("r2", 20), ("r3", 5)] (some 1000)
        [Hatchery.mk "r1" 1000 0, Hatchery.mk "r2" 1000 10, Hatchery.mk "r3" 1000 5]
        (SpawnRequestModel.mk "soldier" (fun _ => 300))
        = RequestOutcome.assigned (Hatchery.mk "r3" 1000 5)
    ∧ (((([Hatchery.mk "r1" 1000 0, Hatchery.mk "r2" 1000 10,
           Hatchery.mk "r3" 1000 5] : List Hatchery).filter
            (fun h => decide ((SpawnRequestModel.mk "soldier" (fun _ => 300)).maxCostAt
              (some 1000) ≤ h.energyCapacityAvailable)) ≠ []
        → ∃ h2, processRequest "w8" [("r1", 50), ("r2", 20), ("r3", 5)] (some 1000)
            [Hatchery.mk "r1" 1000 0, Hatchery.mk "r2" 1000 10, Hatchery.mk "r3" 1000 5]
            (SpawnRequestModel.mk "soldier" (fun _ => 300)) = RequestOutcome.assigned h2)
       ∧ (processRequest "w8" [("r1", 50), ("r2", 20), ("r3", 5)] (some 1000)
            [Hatchery.mk "r1" 1000 0, Hatchery.mk "r2" 1000 10, Hatchery.mk "r3" 1000 5]
            (SpawnRequestModel.mk "soldier" (fun _ => 300))
            = RequestOutcome.assigned (Hatchery.mk "r3" 1000 5)
          → Hatchery.mk "r3" 1000 5 ∈ ([Hatchery.mk "r1" 1000 0, Hatchery.mk "r2" 1000 10,
              Hatchery.mk "r3" 1000 5] : List Hatchery).filter
                (fun h => decide ((SpawnRequestModel.mk "soldier" (fun _ => 300)).maxCostAt
                  (some 1000) ≤ h.energyCapacityAvailable))
            ∧ ∀ h2 ∈ ([Hatchery.mk "r1" 1000 0, Hatchery.mk "r2" 1000 10,
                Hatchery.mk "r3" 1000 5] : List Hatchery).filter
                  (fun h => decide ((SpawnRequestModel.mk "soldier" (fun _ => 300)).maxCostAt
                    (some 1000) ≤ h.energyCapacityAvailable)),
                spawnKey [("r1", 50), ("r2", 20), ("r3", 5)] (Hatchery.mk "r3" 1000 5)
                  ≤ spawnKey [("r1", 50), ("r2", 20), ("r3", 5)] h2))) :=
  ⟨by decide, rfl,
   (c3_spawnAllocation "w8" [("r1", 50), ("r2", 20), ("r3", 5)] (some 1000)
      [Hatchery.mk "r1" 1000 0, Hatchery.mk "r2" 1000 10, Hatchery.mk "r3" 1000 5]
      (SpawnRequestModel.mk "soldier" (fun _ => 300)) (Hatchery.mk "r3" 1000 5)
      SpawnGroupMemoryDefaults (SpawnGroupSettings.mk 250 7 true) (C10World.mk [] [])
      [] (by decide)).2.2.1,
   (c3_spawnAllocation "w8" [("r1", 50), ("r2", 20), ("r3", 5)] (some 1000)
      [Hatchery.mk "r1" 1000 0, Hatchery.mk "r2" 1000 10, Hatchery.mk "r3" 1000 5]
      (SpawnRequestModel.mk "soldier" (fun _ => 300)) (Hatchery.mk "r3" 1000 5)
      SpawnGroupMemoryDefaults (SpawnGroupSettings.mk 250 7 true) (C10World.mk [] [])
      [] (by decide)).2.2.2⟩

/-! ## Claim C6 -/

/-- The recomputation loop builds the three components together, one entry
per accepted room, in room order. -/
theorem recalcLoop_eq (l : List ColonyRoom) :
    recalcLoop l = ((l.filter spawnGroupAccept).map (fun r => r.name),
                    (l.filter spawnGroupAccept).map (fun r => (r.name, r.pathLength)),
                    (l.filter spawnGroupAccept).map (fun r => (r.name, r.route.getD []))) := by
  induction l with
  | nil => rfl
  | cons room rest ih =>
    cases hs : room.hasSpawn with
    | false =>
      have hacc : spawnGroupAccept room = false := by
        simp [spawnGroupAccept, hs]
      simp [recalcLoop, hs, List.filter_cons, hacc, ih]
    | true =>
      cases hr : room.route with
      | none =>
        have hacc : spawnGroupAccept room = false := by
          simp [spawnGroupAccept, hr]
        simp [recalcLoop, hs, hr, List.filter_cons, hacc, ih]
      | some rt =>
        by_cases hc : (!room.pathIncomplete && decide (room.pathLength ≤ MAX_PATH_DISTANCE))
            = true
        · have hacc : spawnGroupAccept room = true := by
            simp only [spawnGroupAccept, hs, hr, Option.isSome_some, Bool.true_and]
            exact hc
          simp [recalcLoop, hs, hr, hc, List.filter_cons, hacc, ih]
        · have hacc : spawnGroupAccept room = false := by
            simp only [spawnGroupAccept, hs, hr, Option.isSome_some, Bool.true_and]
            exact Bool.eq_false_iff.mpr hc
          simp [recalcLoop, hs, hr, hc, List.filter_cons, hacc, ih]

/-- Looking a room's name up in a keyed map over a name-distinct room list
finds that room's entry. -/
theorem lookup_map_of_nodup {β : Type} (g : ColonyRoom → β) (l : List ColonyRoom)
    (hnd : (l.map ColonyRoom.name).Nodup) (r : ColonyRoom) (hr : r ∈ l) :
    (l.map (fun r2 => (r2.name, g r2))).lookup r.name = some (g r) := by
  induction l with
  | nil => cases hr
  | cons hd tl ih =>
    rcases List.mem_cons.mp hr with rfl | hmem
    · simp [List.lookup]
    · have hnotin : hd.name ∉ tl.map ColonyRoom.name := (List.nodup_cons.mp hnd).1
      have hne : (r.name == hd.name) = false := by
        simp only [beq_eq_false_iff_ne, ne_eq]
        intro he
        exact hnotin (he ▸ List.mem_map_of_mem ColonyRoom.name hmem)
      simp only [List.map_cons, List.lookup, hne]
      exact ih (List.nodup_cons.mp hnd).2 hmem

/-- Names of the rooms surviving the two recompute filters stay
name-distinct. -/
theorem nodup_names_filter (w : SGWorld)
    (hnodup : (w.colonyRooms.map ColonyRoom.name).Nodup) :
    (((w.colonyRooms.filter
        (fun room => decide (room.linearDistance ≤ MAX_LINEAR_DISTANCE))).filter
          spawnGroupAccept).map ColonyRoom.name).Nodup := by
  have hsub : (((w.colonyRooms.filter
      (fun room => decide (room.linearDistance ≤ MAX_LINEAR_DISTANCE))).filter
        spawnGroupAccept).map ColonyRoom.name).Sublist
      (w.colonyRooms.map ColonyRoom.name) :=
    ((List.filter_sublist _).trans (List.filter_sublist _)).map ColonyRoom.name
  exact hnodup.sublist hsub

/-- C6: on construction, once the current tick reaches the cached
expiration, eligibility is recomputed from scratch with the fixed bounds
(linear 10, path 600) independently of the instance settings: a colony
room in linear range with a live spawn is accepted exactly when a route
exists, the path is complete and its length is within the absolute
ceiling, and its stored distance is the path length; the new expiration is
the current tick plus the recache interval plus the bounded jitter (so a
second construction in the same tick leaves the memory unchanged, making
the recomputation idempotent). -/
theorem c6_cacheRecompute (settings s2 : SpawnGroupSettings) (time recacheTime : Nat)
    (jitter j2 : Int) (w : SGWorld) (m : SpawnGroupMemory) (room : ColonyRoom)
    (hexp : m.expiration ≤ (time : Int))
    (hjlo : -25 ≤ jitter) (hjhi : jitter ≤ 25) (hbase : 26 ≤ recacheTime)
    (hnodup : (w.colonyRooms.map ColonyRoom.name).Nodup)
    (hroom : room ∈ w.colonyRooms)
    (hlin : room.linearDistance ≤ MAX_LINEAR_DISTANCE)
    (hspawn : room.hasSpawn = true) :
    (constructMemory settings time recacheTime jitter w m).colonies = (recalculateColonies w).1
    ∧ (constructMemory settings time recacheTime jitter w m).distances
        = (recalculateColonies w).2.1
    ∧ (constructMemory settings time recacheTime jitter w m).routes
        = (recalculateColonies w).2.2
    ∧ (room.name ∈ (constructMemory settings time recacheTime jitter w m).colonies
        ↔ (room.route.isSome = true ∧ room.pathIncomplete = false
            ∧ room.pathLength ≤ MAX_PATH_DISTANCE))
    ∧ (spawnGroupAccept room = true →
        ((constructMemory settings time recacheTime jitter w m).distances).lookup room.name
          = some room.pathLength)
    ∧ constructMemory s2 time recacheTime jitter w m
        = constructMemory settings time recacheTime jitter w m
    ∧ (constructMemory settings time recacheTime jitter w m).expiration
        = (time : Int) + (recacheTime : Int) + jitter
    ∧ constructMemory s2 time recacheTime j2 w
        (constructMemory settings time recacheTime jitter w m)
        = constructMemory settings time recacheTime jitter w m := by
  have hfire : constructMemory settings time recacheTime jitter w m
      = applyRecalc time recacheTime jitter w m := by
    unfold constructMemory
    rw [if_pos hexp]
  have haccept : spawnGroupAccept room = true
      ↔ (room.route.isSome = true ∧ room.pathIncomplete = false
          ∧ room.pathLength ≤ MAX_PATH_DISTANCE) := by
    simp [spawnGroupAccept, hspawn, and_assoc]
  have hmemroom : room ∈ w.colonyRooms.filter
      (fun room2 => decide (room2.linearDistance ≤ MAX_LINEAR_DISTANCE)) :=
    List.mem_filter.mpr ⟨hroom, by simpa using hlin⟩
  refine ⟨by rw [hfire]; rfl, by rw [hfire]; rfl, by rw [hfire]; rfl, ?_, ?_, ?_, ?_, ?_⟩
  · rw [hfire]
    show room.name ∈ (recalculateColonies w).1 ↔ _
    unfold recalculateColonies
    rw [recalcLoop_eq]
    rw [← haccept]
    simp only [List.mem_map]
    constructor
    · rintro ⟨r2, hr2, hname⟩
      have hr2w : r2 ∈ w.colonyRooms :=
        List.mem_of_mem_filter (List.mem_of_mem_filter hr2)
      have heq : r2 = room := List.inj_on_of_nodup_map hnodup hr2w hroom hname
      rw [← heq]
      exact (List.mem_filter.mp hr2).2
    · intro hacc
      exact ⟨room, List.mem_filter.mpr ⟨hmemroom, hacc⟩, rfl⟩
  · intro hacc
    rw [hfire]
    show (recalculateColonies w).2.1.lookup room.name = _
    unfold recalculateColonies
    rw [recalcLoop_eq]
    exact lookup_map_of_nodup (fun r2 => r2.pathLength) _ (nodup_names_filter w hnodup)
      room (List.mem_filter.mpr ⟨hmemroom, hacc⟩)
  · rfl
  · rw [hfire]
    rfl
  · rw [hfire]
    unfold constructMemory
    rw [if_neg (by
      show ¬ (applyRecalc time recacheTime jitter w m).expiration ≤ (time : Int)
      show ¬ getCacheExpiration time recacheTime jitter ≤ (time : Int)
      unfold getCacheExpiration
      omega)]

/-- Witness for `c6_cacheRecompute`: at tick 100 an expired default memory
is recomputed over the one-room world. -/
theorem c6_cacheRecompute_witness :
    SpawnGroupMemoryDefaults.expiration ≤ ((100 : Nat) : Int)
    ∧ (-25 : Int) ≤ 7 ∧ (7 : Int) ≤ 25 ∧ 26 ≤ 1000
    ∧ (c6World.colonyRooms.map ColonyRoom.name).Nodup
    ∧ c6Room ∈ c6World.colonyRooms
    ∧ c6Room.linearDistance ≤ MAX_LINEAR_DISTANCE
    ∧ c6Room.hasSpawn = true
    ∧ ((constructMemory defaultSGSettings 100 1000 7 c6World SpawnGroupMemoryDefaults).colonies
         = (recalculateColonies c6World).1
       ∧ (constructMemory defaultSGSettings 100 1000 7 c6World SpawnGroupMemoryDefaults).distances
           = (recalculateColonies c6World).2.1
       ∧ (constructMemory defaultSGSettings 100 1000 7 c6World SpawnGroupMemoryDefaults).routes
           = (recalculateColonies c6World).2.2
       ∧ (c6Room.name ∈ (constructMemory defaultSGSettings 100 1000 7 c6World
             SpawnGroupMemoryDefaults).colonies
           ↔ (c6Room.route.isSome = true ∧ c6Room.pathIncomplete = false
               ∧ c6Room.pathLength ≤ MAX_PATH_DISTANCE))
       ∧ (spawnGroupAccept c6Room = true →
           ((constructMemory defaultSGSettings 100 1000 7 c6World
               SpawnGroupMemoryDefaults).distances).lookup c6Room.name
             = some c6Room.pathLength)
       ∧ constructMemory c6AltSettings 100 1000 7 c6World SpawnGroupMemoryDefaults
           = constructMemory defaultSGSettings 100 1000 7 c6World SpawnGroupMemoryDefaults
       ∧ (constructMemory defaultSGSettings 100 1000 7 c6World
            SpawnGroupMemoryDefaults).expiration
           = ((100 : Nat) : Int) + ((1000 : Nat) : Int) + 7
       ∧ constructMemory c6AltSettings 100 1000 (-3) c6World
           (constructMemory defaultSGSettings 100 1000 7 c6World SpawnGroupMemoryDefaults)
           = constructMemory defaultSGSettings 100 1000 7 c6World SpawnGroupMemoryDefaults) :=
  ⟨by decide, by decide, by decide, by decide, by decide, by decide, by decide, by decide,
   c6_cacheRecompute defaultSGSettings c6AltSettings 100 1000 7 (-3) c6World
     SpawnGroupMemoryDefaults c6Room (by decide) (by decide) (by decide) (by decide)
     (by decide) (by decide) (by decide) (by decide)⟩

/-! ## Claim C9 -/

/-- In any freshly recomputed triple, the key set of `distances` and of
`routes` is exactly the `colonies` list. -/
theorem recalc_keys (w : SGWorld) :
    (recalculateColonies w).2.1.map Prod.fst = (recalculateColonies w).1
    ∧ (recalculateColonies w).2.2.map Prod.fst = (recalculateColonies w).1 := by
  unfold recalculateColonies
  rw [recalcLoop_eq]
  constructor <;> rw [List.map_map] <;> rfl

/-- The subset invariant holds for every reachable spawn-group memory. -/
theorem sgReachable_invariant (m : SpawnGroupMemory) (h : SGReachable m) :
    (∀ k ∈ m.distances.map Prod.fst, k ∈ m.colonies)
    ∧ (∀ k ∈ m.routes.map Prod.fst, k ∈ m.colonies) := by
  induction h with
  | defaults =>
    constructor <;> intro k hk <;> simp [SpawnGroupMemoryDefaults] at hk
  | construct settings time recacheTime jitter w m2 hm ih =>
    by_cases hexp : m2.expiration ≤ (time : Int)
    · have hfire : constructMemory settings time recacheTime jitter w m2
          = applyRecalc time recacheTime jitter w m2 := by
        unfold constructMemory
        rw [if_pos hexp]
      rw [hfire]
      unfold applyRecalc
      dsimp only
      constructor
      · intro k hk
        rw [(recalc_keys w).1] at hk
        exact hk
      · intro k hk
        rw [(recalc_keys w).2] at hk
        exact hk
    · have hskip : constructMemory settings time recacheTime jitter w m2 = m2 := by
        unfold constructMemory
        rw [if_neg hexp]
      rw [hskip]
      exact ih

/-- C9: for every reachable spawn-group memory, the key sets of the
cached `distances` and `routes` maps are subsets of the cached
`eligibleColonies` list; a recomputation replaces `colonies`, `distances`
and `routes` together with the components of one recalculation (keys
exactly equal to the new colony list), never mixing old and new
entries. -/
theorem c9_memoryInvariant (m : SpawnGroupMemory) (settings : SpawnGroupSettings)
    (time recacheTime : Nat) (jitter : Int) (w : SGWorld)
    (h : SGReachable m) (hexp : m.expiration ≤ (time : Int)) :
    ((∀ k ∈ m.distances.map Prod.fst, k ∈ m.colonies)
     ∧ (∀ k ∈ m.routes.map Prod.fst, k ∈ m.colonies))
    ∧ (constructMemory settings time recacheTime jitter w m).colonies
        = (recalculateColonies w).1
    ∧ (constructMemory settings time recacheTime jitter w m).distances
        = (recalculateColonies w).2.1
    ∧ (constructMemory settings time recacheTime jitter w m).routes
        = (recalculateColonies w).2.2
    ∧ (constructMemory settings time recacheTime jitter w m).distances.map Prod.fst
        = (constructMemory settings time recacheTime jitter w m).colonies
    ∧ (constructMemory settings time recacheTime jitter w m).routes.map Prod.fst
        = (constructMemory settings time recacheTime jitter w m).colonies := by
  have hfire : constructMemory settings time recacheTime jitter w m
      = applyRecalc time recacheTime jitter w m := by
    unfold constructMemory
    rw [if_pos hexp]
  refine ⟨sgReachable_invariant m h, by rw [hfire]; rfl, by rw [hfire]; rfl,
          by rw [hfire]; rfl, ?_, ?_⟩
  · rw [hfire]
    show (recalculateColonies w).2.1.map Prod.fst = (recalculateColonies w).1
    exact (recalc_keys w).1
  · rw [hfire]
    show (recalculateColonies w).2.2.map Prod.fst = (recalculateColonies w).1
    exact (recalc_keys w).2

/-- Witness for `c9_memoryInvariant` at the default memory and the
one-room world. -/
theorem c9_memoryInvariant_witness :
    SGReachable SpawnGroupMemoryDefaults
    ∧ SpawnGroupMemoryDefaults.expiration ≤ ((100 : Nat) : Int)
    ∧ (((∀ k ∈ SpawnGroupMemoryDefaults.distances.map Prod.fst,
          k ∈ SpawnGroupMemoryDefaults.colonies)
        ∧ (∀ k ∈ SpawnGroupMemoryDefaults.routes.map Prod.fst,
            k ∈ SpawnGroupMemoryDefaults.colonies))
       ∧ (constructMemory defaultSGSettings 100 1000 7 c6World SpawnGroupMemoryDefaults).colonies
           = (recalculateColonies c6World).1
       ∧ (constructMemory defaultSGSettings 100 1000 7 c6World SpawnGroupMemoryDefaults).distances
           = (recalculateColonies c6World).2.1
       ∧ (constructMemory defaultSGSettings 100 1000 7 c6World SpawnGroupMemoryDefaults).routes
           = (recalculateColonies c6World).2.2
       ∧ (constructMemory defaultSGSettings 100 1000 7 c6World
            SpawnGroupMemoryDefaults).distances.map Prod.fst
           = (constructMemory defaultSGSettings 100 1000 7 c6World
               SpawnGroupMemoryDefaults).colonies
       ∧ (constructMemory defaultSGSettings 100 1000 7 c6World
            SpawnGroupMemoryDefaults).routes.map Prod.fst
           = (constructMemory defaultSGSettings 100 1000 7 c6World
               SpawnGroupMemoryDefaults).colonies) :=
  ⟨SGReachable.defaults, by decide,
   c9_memoryInvariant SpawnGroupMemoryDefaults defaultSGSettings 100 1000 7 c6World
     SGReachable.defaults (by decide)⟩

/-! ## Claim C10 -/

/-- C10: the outcome of `SpawnGroup.init` is independent of the
`flexibleEnergy` setting: with the same cached memory, requests and world
state, two instances differing only in `flexibleEnergy` filter the same
producers (same `colonyNames`, same aggregate energy capacity) and give
every request the identical outcome — identical assignments and identical
warnings.  (The only read of `flexibleEnergy` in `SpawnGroup.init` is
commented out in the source.) -/
theorem c10_flexibleEnergyIndependence (mem : SpawnGroupMemory) (maxPD reqRCL : Nat)
    (b1 b2 : Bool) (w : C10World) (anchor : String) (requests : List SpawnRequestModel) :
    computeColonyNames mem (SpawnGroupSettings.mk maxPD reqRCL b1) w.rooms
      = computeColonyNames mem (SpawnGroupSettings.mk maxPD reqRCL b2) w.rooms
    ∧ computeEnergyCapacity
        (computeColonyNames mem (SpawnGroupSettings.mk maxPD reqRCL b1) w.rooms) w.rooms
      = computeEnergyCapacity
        (computeColonyNames mem (SpawnGroupSettings.mk maxPD reqRCL b2) w.rooms) w.rooms
    ∧ spawnGroupInit mem (SpawnGroupSettings.mk maxPD reqRCL b1) w anchor requests
      = spawnGroupInit mem (SpawnGroupSettings.mk maxPD reqRCL b2) w anchor requests :=
  ⟨rfl, rfl, rfl⟩
